import Mathlib

/-!
Shallow embedding of the go-forms field-validation library (package `forms`).

The repository has two source files providing the same set of checks:
* the `Is*` family (direct mutation through `AddError`), and
* the `Validate`-wrapped family (`StringLength`, `NumberBetween`, `Size`,
  `MinSize`, `Regex`, `Email`), where each check builds an `error` value via
  `fmt.Errorf` inside a closure and feeds it through the generic recorder
  `Validate`.

Modelling choices, all taken from the Go source:
* `Errors` (`map[string][]string`) is a total function from field names to
  message lists; a missing key reads as the empty list, exactly as a Go map
  read of an absent key yields a nil slice.
* Go `len` on a string is its UTF-8 byte count, embedded as
  `String.utf8ByteSize`.
* Go's generic `NumericComparable` (every signed/unsigned integer type)
  embeds each value into `Int`; `<`, `>` and `%d` formatting on any Go
  integer type agree with the corresponding operations on the embedded `Int`.
* Go's generic `Lengthable` (`[]Q | map[U]Q`) becomes an inductive with a
  slice and a map constructor; `len` is the slice length resp. the number of
  distinct keys.
* a compiled `*regexp.Regexp` is abstracted to its `MatchString` predicate;
  the one concrete pattern of the library, `EmailRx = ^\S+@\S+$`, is given
  an executable matcher (`\S` in Go RE2 is the complement of `[\t\n\f\r ]`).
* a Go `error` is modelled by its message string (`nil` as `none`), and
  `fmt.Errorf` applied to a format string with zero operands is modelled by
  `fmtErrorf` below.
-/

namespace GoForms

/-- `type Errors map[string][]string`; an absent key reads as the empty
sequence, as in Go. -/
def Errors : Type := String → List String

instance : Inhabited Errors := ⟨fun _ => []⟩

/-- The empty error accumulator the caller starts from. -/
def emptyErrors : Errors := fun _ => []

/-- `AddError` from the `Is*` file:
`errors[field] = append(errors[field], msg)`. -/
def AddError (field : String) (errors : Errors) (msg : String) : Errors :=
  fun f => if f = field then errors f ++ [msg] else errors f

/-- Go RE2 `\s` is exactly `[\t\n\f\r ]`; this is its membership test. -/
def isGoSpace (c : Char) : Bool :=
  c = '\t' || c = '\n' || c = '\x0c' || c = '\r' || c = ' '

/-- `\S+$`: a non-empty run of non-whitespace reaching the end of input. -/
def nonEmptyNonSpace : List Char → Bool
  | [] => false
  | c :: rest => !(isGoSpace c) && rest.all (fun d => !(isGoSpace d))

/-- Matcher for the regex fragment `\S*@\S+$` (what remains of
`^\S+@\S+$` once at least one leading `\S` character has been consumed):
either the current character is the literal `@` followed by `\S+$`, or it
is a further `\S` character and the rest matches recursively.  The
alternation reproduces the regex engine's backtracking over the choice of
which `@` is the literal one. -/
def emailAfterOne : List Char → Bool
  | [] => false
  | c :: rest =>
    (c = '@' && nonEmptyNonSpace rest) || (!(isGoSpace c) && emailAfterOne rest)

/-- Matcher for the whole pattern `^\S+@\S+$`. -/
def emailMatch : List Char → Bool
  | [] => false
  | c :: rest => !(isGoSpace c) && emailAfterOne rest

/-- A compiled Go `*regexp.Regexp`, abstracted to its `MatchString`
predicate. -/
def Regexp : Type := String → Bool

/-- `rx.MatchString(v)`. -/
def Regexp.MatchString (rx : Regexp) (v : String) : Bool := rx v

/-- `var EmailRx = regexp.MustCompile(`^\S+@\S+$`)`. -/
def EmailRx : Regexp := fun v => emailMatch v.data

/-- A regexp that matches nothing; used to exercise the failure branch of
the pattern checks on concrete inputs. -/
def neverRx : Regexp := fun _ => false

/-- Go `fmt.Sprintf`/`fmt.Errorf` output for a format string applied to
ZERO operands, as the `Validate`-wrapped family does with
`fmt.Errorf(msg)`: ordinary characters are copied; `%%` emits `%`; a `%`
ending the string emits `%!(NOVERB)`; any other verb `%c` has a missing
operand and emits `%!c(MISSING)`.  (Flag/width/precision modifiers after
`%` are not modelled; no format string this development evaluates uses
them.) -/
def fmtNoOperands : List Char → List Char
  | [] => []
  | c :: rest =>
    if c = '%' then
      match rest with
      | [] => "%!(NOVERB)".data
      | d :: rest2 =>
        if d = '%' then '%' :: fmtNoOperands rest2
        else '%' :: '!' :: d :: ("(MISSING)".data ++ fmtNoOperands rest2)
    else c :: fmtNoOperands rest

/-- `fmt.Errorf(format)` (no operands), modelled by the message string of
the resulting error. -/
def fmtErrorf (format : String) : String := ⟨fmtNoOperands format.data⟩

/-- Go's generic constraint `Lengthable[Q any, U comparable]`,
`[]Q | map[U]Q`: a slice of `Q` or a map from `U` to `Q` (a map is a
finite key-value association; `len` counts its distinct keys). -/
inductive Lengthable (Q U : Type) : Type where
  | slice : List Q → Lengthable Q U
  | gomap : List (U × Q) → Lengthable Q U

/-- Go `len(v)` for a `Lengthable` value: slice length, or number of
distinct keys of the map. -/
def Lengthable.len [DecidableEq U] : Lengthable Q U → Nat
  | .slice l => l.length
  | .gomap l => (l.map Prod.fst).dedup.length

/-! ### The `Is*` family (direct mutation) -/

/-- `IsStringLength`: appends (via `AddError`) when
`len(v) < m || len(v) > n`; Go `len` of a string is its byte count. -/
def IsStringLength (field : String) (errors : Errors) (v : String)
    (m n : Int) : Errors :=
  let msg :=
    if m = n then "Must be exactly " ++ toString m ++ " characters long"
    else "Must be between " ++ toString m ++ " and " ++ toString n ++
      " characters long"
  if (v.utf8ByteSize : Int) < m ∨ (v.utf8ByteSize : Int) > n then
    AddError field errors msg
  else errors

/-- `IsNumberBetween[T NumericComparable]`: the Go value of any integer
type is embedded into `Int`. -/
def IsNumberBetween (field : String) (errors : Errors) (v m n : Int) :
    Errors :=
  let msg :=
    if m = n then "Must be exactly " ++ toString m ++ ", but was " ++
      toString v
    else "Must be between " ++ toString m ++ " and " ++ toString n ++
      ", but was " ++ toString v
  if v < m ∨ v > n then AddError field errors msg else errors

/-- `IsSize[T Lengthable[Q, U]]`. -/
def IsSize [DecidableEq U] (field : String) (errors : Errors)
    (v : Lengthable Q U) (m n : Int) : Errors :=
  let msg :=
    if m = n then "Must have exactly " ++ toString m ++
      " entries, but had " ++ toString v.len
    else "Must have between " ++ toString m ++ " and " ++ toString n ++
      " entries, but had " ++ toString v.len
  if (v.len : Int) < m ∨ (v.len : Int) > n then AddError field errors msg
  else errors

/-- `IsMinSize[T Lengthable[Q, U]]`: `entry := "entry"; if n > 1 { entry =
"entries" }`. -/
def IsMinSize [DecidableEq U] (field : String) (errors : Errors)
    (v : Lengthable Q U) (n : Int) : Errors :=
  let entry := if n > 1 then "entries" else "entry"
  let msg := "Must have a minimum of " ++ toString n ++ " " ++ entry ++
    ", but had " ++ toString v.len
  if (v.len : Int) < n then AddError field errors msg else errors

/-- `IsRegex`: appends the caller-supplied message verbatim when the value
does not match. -/
def IsRegex (field : String) (errors : Errors) (v : String) (rx : Regexp)
    (message : String) : Errors :=
  if !(rx.MatchString v) then AddError field errors message else errors

/-- `IsEmail`: `IsRegex(field, errors, v, EmailRx, "Email address is
invalid")`. -/
def IsEmail (field : String) (errors : Errors) (v : String) : Errors :=
  IsRegex field errors v EmailRx "Email address is invalid"

/-! ### The `Validate`-wrapped family -/

/-- `Validate` from `validate/validation.go`: records `err.Error()` under
`field` when `err` is non-nil. -/
def Validate (field : String) (errors : Errors) (err : Option String) :
    Errors :=
  match err with
  | some e => fun f => if f = field then errors f ++ [e] else errors f
  | none => errors

/-- `StringLength`: the closure builds the same message, returns
`fmt.Errorf(msg)` on violation, `nil` otherwise, and the result is fed to
`Validate`. -/
def StringLength (field : String) (errors : Errors) (v : String)
    (m n : Int) : Errors :=
  Validate field errors
    (let msg :=
      if m = n then "Must be exactly " ++ toString m ++ " characters long"
      else "Must be between " ++ toString m ++ " and " ++ toString n ++
        " characters long"
    if (v.utf8ByteSize : Int) < m ∨ (v.utf8ByteSize : Int) > n then
      some (fmtErrorf msg)
    else none)

/-- `NumberBetween[T NumericComparable]`, wrapped form. -/
def NumberBetween (field : String) (errors : Errors) (v m n : Int) :
    Errors :=
  Validate field errors
    (let msg :=
      if m = n then "Must be exactly " ++ toString m ++ ", but was " ++
        toString v
      else "Must be between " ++ toString m ++ " and " ++ toString n ++
        ", but was " ++ toString v
    if v < m ∨ v > n then some (fmtErrorf msg) else none)

/-- `Size[T Lengthable[Q, U]]`, wrapped form. -/
def Size [DecidableEq U] (field : String) (errors : Errors)
    (v : Lengthable Q U) (m n : Int) : Errors :=
  Validate field errors
    (let msg :=
      if m = n then "Must have exactly " ++ toString m ++
        " entries, but had " ++ toString v.len
      else "Must have between " ++ toString m ++ " and " ++ toString n ++
        " entries, but had " ++ toString v.len
    if (v.len : Int) < m ∨ (v.len : Int) > n then some (fmtErrorf msg)
    else none)

/-- `MinSize[T Lengthable[Q, U]]`, wrapped form. -/
def MinSize [DecidableEq U] (field : String) (errors : Errors)
    (v : Lengthable Q U) (n : Int) : Errors :=
  Validate field errors
    (let entry := if n > 1 then "entries" else "entry"
    let msg := "Must have a minimum of " ++ toString n ++ " " ++ entry ++
      ", but had " ++ toString v.len
    if (v.len : Int) < n then some (fmtErrorf msg) else none)

/-- `Regex`, wrapped form: on failure the closure returns
`fmt.Errorf(message)` — the caller message is used as a FORMAT string. -/
def Regex (field : String) (errors : Errors) (v : String) (rx : Regexp)
    (message : String) : Errors :=
  Validate field errors
    (if !(rx.MatchString v) then some (fmtErrorf message) else none)

/-- `Email`, wrapped form (the closure is inlined in the source rather
than calling `Regex`). -/
def Email (field : String) (errors : Errors) (v : String) : Errors :=
  Validate field errors
    (if !(EmailRx.MatchString v) then
      some (fmtErrorf "Email address is invalid")
    else none)

/-! ### Auxiliary notions used by the statements -/

/-- A Go integer type: signedness and bit width.  `intN`/`uintN` for
`N ∈ {8,16,32,64}` (and `int`/`uint`, which are 64-bit here) are the
instances realised by `NumericComparable`. -/
structure GoIntTy : Type where
  signed : Bool
  bits : Nat

/-- Smallest value of the type. -/
def GoIntTy.lo (t : GoIntTy) : Int :=
  if t.signed then -(2 ^ (t.bits - 1)) else 0

/-- Largest value of the type. -/
def GoIntTy.hi (t : GoIntTy) : Int :=
  if t.signed then 2 ^ (t.bits - 1) - 1 else 2 ^ t.bits - 1

/-- `v` is a value of the Go integer type `t`. -/
def GoIntTy.inRange (t : GoIntTy) (v : Int) : Prop :=
  t.lo ≤ v ∧ v ≤ t.hi

instance (t : GoIntTy) (v : Int) : Decidable (t.inRange v) := by
  unfold GoIntTy.inRange; infer_instance

/-- The accumulator gained exactly one message under `field` and is
untouched at every other key. -/
def AppendsOne (field : String) (old new : Errors) : Prop :=
  (∃ msg, new field = old field ++ [msg]) ∧
    ∀ g, g ≠ field → new g = old g

/-- `s` contains no `%` character, hence survives `fmt.Errorf`
verbatim. -/
def pctFree (s : String) : Prop := ∀ c ∈ s.data, c ≠ '%'

instance (s : String) : Decidable (pctFree s) := by
  unfold pctFree; infer_instance

/-! ### Basic lemmas about the accumulator primitives -/

theorem data_append (a b : String) : (a ++ b).data = a.data ++ b.data := by
  cases a; cases b; rfl

theorem addError_self (field : String) (errors : Errors) (msg : String) :
    AddError field errors msg field = errors field ++ [msg] := by
  simp [AddError]

theorem addError_other {g field : String} (h : g ≠ field)
    (errors : Errors) (msg : String) :
    AddError field errors msg g = errors g := by
  simp [AddError, h]

theorem addError_appendsOne (field : String) (errors : Errors)
    (msg : String) : AppendsOne field errors (AddError field errors msg) :=
  ⟨⟨msg, addError_self field errors msg⟩,
    fun _ hg => addError_other hg errors msg⟩

theorem validate_none (field : String) (errors : Errors) :
    Validate field errors none = errors := rfl

theorem validate_some_eq_addError (field : String) (errors : Errors)
    (e : String) : Validate field errors (some e) = AddError field errors e :=
  rfl

theorem no_append_self (l : List String) : ¬ ∃ msg, l = l ++ [msg] := by
  rintro ⟨msg, h⟩
  simpa using congrArg List.length h

/-! ### `fmt.Errorf` is the identity on `%`-free strings -/

theorem digitChar_ne_pct (n : Nat) : Nat.digitChar n ≠ '%' := by
  obtain h16 | h16 := lt_or_ge n 16
  · interval_cases n <;> decide
  · have h : Nat.digitChar n = '*' := by
      unfold Nat.digitChar
      iterate 16 rw [if_neg (show _ by omega)]
    rw [h]; decide

theorem toDigitsCore_pctFree (fuel : Nat) :
    ∀ (n : Nat) (ds : List Char), (∀ c ∈ ds, c ≠ '%') →
      ∀ c ∈ Nat.toDigitsCore 10 fuel n ds, c ≠ '%' := by
  induction fuel with
  | zero => intro n ds h; simpa [Nat.toDigitsCore] using h
  | succ fuel ih =>
    intro n ds h
    rw [Nat.toDigitsCore]
    split
    · intro c hc
      rcases List.mem_cons.mp hc with h1 | h2
      · subst h1; exact digitChar_ne_pct _
      · exact h c h2
    · refine ih _ _ ?_
      intro c hc
      rcases List.mem_cons.mp hc with h1 | h2
      · subst h1; exact digitChar_ne_pct _
      · exact h c h2

theorem pctFree_nat_toString (n : Nat) : pctFree (toString n) := by
  intro c hc
  have : (toString n).data = Nat.toDigits 10 n := rfl
  rw [this] at hc
  exact toDigitsCore_pctFree (n + 1) n [] (by simp) c hc

theorem pctFree_int_toString (m : Int) : pctFree (toString m) := by
  cases m with
  | ofNat k => exact pctFree_nat_toString k
  | negSucc k =>
    intro c hc
    have : toString (Int.negSucc k) = "-" ++ toString (k + 1) := rfl
    rw [this, data_append] at hc
    rcases List.mem_append.mp hc with h | h
    · have hd : ("-" : String).data = ['-'] := rfl
      rw [hd, List.mem_singleton] at h
      subst h; decide
    · exact pctFree_nat_toString _ c h

theorem pctFree_append {a b : String} :
    pctFree (a ++ b) ↔ pctFree a ∧ pctFree b := by
  unfold pctFree
  rw [data_append]
  exact List.forall_mem_append

theorem pctFree_ite (p : Prop) [Decidable p] {a b : String}
    (ha : pctFree a) (hb : pctFree b) : pctFree (if p then a else b) := by
  split <;> assumption

theorem fmtNoOperands_cons_ne {c : Char} (hc : c ≠ '%') (rest : List Char) :
    fmtNoOperands (c :: rest) = c :: fmtNoOperands rest := by
  rw [fmtNoOperands.eq_def]
  simp [hc]

theorem fmtNoOperands_eq_self {l : List Char} (h : ∀ c ∈ l, c ≠ '%') :
    fmtNoOperands l = l := by
  induction l with
  | nil => rfl
  | cons c rest ih =>
    have hc : c ≠ '%' := h c (List.mem_cons_self c rest)
    rw [fmtNoOperands_cons_ne hc,
      ih (fun d hd => h d (List.mem_cons_of_mem c hd))]

theorem fmtErrorf_eq_self {s : String} (h : pctFree s) : fmtErrorf s = s := by
  cases s with
  | mk l => exact congrArg String.mk (fmtNoOperands_eq_self h)

/-! ### The generated messages contain no `%` character -/

theorem pctFree_lenExact (m : Int) :
    pctFree ("Must be exactly " ++ toString m ++ " characters long") := by
  simp only [pctFree_append]
  exact ⟨⟨by decide, pctFree_int_toString m⟩, by decide⟩

theorem pctFree_lenBetween (m n : Int) :
    pctFree ("Must be between " ++ toString m ++ " and " ++ toString n ++
      " characters long") := by
  simp only [pctFree_append]
  exact ⟨⟨⟨⟨by decide, pctFree_int_toString m⟩, by decide⟩,
    pctFree_int_toString n⟩, by decide⟩

theorem pctFree_numExact (m v : Int) :
    pctFree ("Must be exactly " ++ toString m ++ ", but was " ++
      toString v) := by
  simp only [pctFree_append]
  exact ⟨⟨⟨by decide, pctFree_int_toString m⟩, by decide⟩,
    pctFree_int_toString v⟩

theorem pctFree_numBetween (m n v : Int) :
    pctFree ("Must be between " ++ toString m ++ " and " ++ toString n ++
      ", but was " ++ toString v) := by
  simp only [pctFree_append]
  exact ⟨⟨⟨⟨⟨by decide, pctFree_int_toString m⟩, by decide⟩,
    pctFree_int_toString n⟩, by decide⟩, pctFree_int_toString v⟩

theorem pctFree_sizeExact (m : Int) (k : Nat) :
    pctFree ("Must have exactly " ++ toString m ++ " entries, but had " ++
      toString k) := by
  simp only [pctFree_append]
  exact ⟨⟨⟨by decide, pctFree_int_toString m⟩, by decide⟩,
    pctFree_nat_toString k⟩

theorem pctFree_sizeBetween (m n : Int) (k : Nat) :
    pctFree ("Must have between " ++ toString m ++ " and " ++ toString n ++
      " entries, but had " ++ toString k) := by
  simp only [pctFree_append]
  exact ⟨⟨⟨⟨⟨by decide, pctFree_int_toString m⟩, by decide⟩,
    pctFree_int_toString n⟩, by decide⟩, pctFree_nat_toString k⟩

theorem pctFree_minSize (n : Int) (k : Nat) :
    pctFree ("Must have a minimum of " ++ toString n ++ " " ++
      (if n > 1 then "entries" else "entry") ++ ", but had " ++
      toString k) := by
  simp only [pctFree_append]
  exact ⟨⟨⟨⟨⟨by decide, pctFree_int_toString n⟩, by decide⟩,
    pctFree_ite _ (by decide) (by decide)⟩, by decide⟩,
    pctFree_nat_toString k⟩

/-! ### The wrapped family agrees with the `Is*` family -/

theorem stringLength_eq_isStringLength (field : String) (errors : Errors)
    (v : String) (m n : Int) :
    StringLength field errors v m n = IsStringLength field errors v m n := by
  simp only [StringLength, IsStringLength]
  by_cases hc : ((v.utf8ByteSize : Int) < m ∨ (v.utf8ByteSize : Int) > n)
  · rw [if_pos hc, if_pos hc, validate_some_eq_addError,
      fmtErrorf_eq_self (pctFree_ite _ (pctFree_lenExact m)
        (pctFree_lenBetween m n))]
  · rw [if_neg hc, if_neg hc, validate_none]

theorem numberBetween_eq_isNumberBetween (field : String) (errors : Errors)
    (v m n : Int) :
    NumberBetween field errors v m n = IsNumberBetween field errors v m n := by
  simp only [NumberBetween, IsNumberBetween]
  by_cases hc : (v < m ∨ v > n)
  · rw [if_pos hc, if_pos hc, validate_some_eq_addError,
      fmtErrorf_eq_self (pctFree_ite _ (pctFree_numExact m v)
        (pctFree_numBetween m n v))]
  · rw [if_neg hc, if_neg hc, validate_none]

theorem size_eq_isSize {Q U : Type} [DecidableEq U] (field : String)
    (errors : Errors) (v : Lengthable Q U) (m n : Int) :
    Size field errors v m n = IsSize field errors v m n := by
  simp only [Size, IsSize]
  by_cases hc : ((v.len : Int) < m ∨ (v.len : Int) > n)
  · rw [if_pos hc, if_pos hc, validate_some_eq_addError,
      fmtErrorf_eq_self (pctFree_ite _ (pctFree_sizeExact m v.len)
        (pctFree_sizeBetween m n v.len))]
  · rw [if_neg hc, if_neg hc, validate_none]

theorem minSize_eq_isMinSize {Q U : Type} [DecidableEq U] (field : String)
    (errors : Errors) (v : Lengthable Q U) (n : Int) :
    MinSize field errors v n = IsMinSize field errors v n := by
  simp only [MinSize, IsMinSize]
  by_cases hc : ((v.len : Int) < n)
  · rw [if_pos hc, if_pos hc, validate_some_eq_addError,
      fmtErrorf_eq_self (pctFree_minSize n v.len)]
  · rw [if_neg hc, if_neg hc, validate_none]

theorem regex_eq_isRegex_of_pctFree (field : String) (errors : Errors)
    (v : String) (rx : Regexp) {message : String} (h : pctFree message) :
    Regex field errors v rx message = IsRegex field errors v rx message := by
  simp only [Regex, IsRegex]
  by_cases hm : rx.MatchString v
  · simp [hm, validate_none]
  · simp only [Bool.not_eq_true] at hm
    simp [hm, validate_some_eq_addError, fmtErrorf_eq_self h]

theorem email_eq_isEmail (field : String) (errors : Errors) (v : String) :
    Email field errors v = IsEmail field errors v := by
  simp only [Email, IsEmail, IsRegex]
  by_cases hm : EmailRx.MatchString v
  · simp [hm, validate_none]
  · simp only [Bool.not_eq_true] at hm
    simp [hm, validate_some_eq_addError,
      fmtErrorf_eq_self (show pctFree "Email address is invalid" by decide)]

/-! ### Effect and frame lemmas for the `Is*` checks -/

theorem validate_frame {g field : String} (h : g ≠ field) (errors : Errors)
    (e : Option String) : Validate field errors e g = errors g := by
  cases e <;> simp [Validate, h]

theorem isStringLength_noop {field : String} {errors : Errors} {v : String}
    {m n : Int}
    (h : ¬((v.utf8ByteSize : Int) < m ∨ (v.utf8ByteSize : Int) > n)) :
    IsStringLength field errors v m n = errors := by
  simp only [IsStringLength]
  exact if_neg h

theorem isStringLength_violated {field : String} {errors : Errors}
    {v : String} {m n : Int}
    (h : (v.utf8ByteSize : Int) < m ∨ (v.utf8ByteSize : Int) > n) :
    IsStringLength field errors v m n =
      AddError field errors
        (if m = n then "Must be exactly " ++ toString m ++ " characters long"
        else "Must be between " ++ toString m ++ " and " ++ toString n ++
          " characters long") := by
  simp only [IsStringLength]
  exact if_pos h

theorem isNumberBetween_noop {field : String} {errors : Errors} {v m n : Int}
    (h : ¬(v < m ∨ v > n)) : IsNumberBetween field errors v m n = errors := by
  simp only [IsNumberBetween]
  exact if_neg h

theorem isNumberBetween_violated {field : String} {errors : Errors}
    {v m n : Int} (h : v < m ∨ v > n) :
    IsNumberBetween field errors v m n =
      AddError field errors
        (if m = n then "Must be exactly " ++ toString m ++ ", but was " ++
          toString v
        else "Must be between " ++ toString m ++ " and " ++ toString n ++
          ", but was " ++ toString v) := by
  simp only [IsNumberBetween]
  exact if_pos h

theorem isSize_noop {Q U : Type} [DecidableEq U] {field : String}
    {errors : Errors} {v : Lengthable Q U} {m n : Int}
    (h : ¬((v.len : Int) < m ∨ (v.len : Int) > n)) :
    IsSize field errors v m n = errors := by
  simp only [IsSize]
  exact if_neg h

theorem isSize_violated {Q U : Type} [DecidableEq U] {field : String}
    {errors : Errors} {v : Lengthable Q U} {m n : Int}
    (h : (v.len : Int) < m ∨ (v.len : Int) > n) :
    IsSize field errors v m n =
      AddError field errors
        (if m = n then "Must have exactly " ++ toString m ++
          " entries, but had " ++ toString v.len
        else "Must have between " ++ toString m ++ " and " ++ toString n ++
          " entries, but had " ++ toString v.len) := by
  simp only [IsSize]
  exact if_pos h

theorem isMinSize_noop {Q U : Type} [DecidableEq U] {field : String}
    {errors : Errors} {v : Lengthable Q U} {n : Int}
    (h : ¬((v.len : Int) < n)) : IsMinSize field errors v n = errors := by
  simp only [IsMinSize]
  exact if_neg h

theorem isMinSize_violated {Q U : Type} [DecidableEq U] {field : String}
    {errors : Errors} {v : Lengthable Q U} {n : Int}
    (h : (v.len : Int) < n) :
    IsMinSize field errors v n =
      AddError field errors
        ("Must have a minimum of " ++ toString n ++ " " ++
          (if n > 1 then "entries" else "entry") ++ ", but had " ++
          toString v.len) := by
  simp only [IsMinSize]
  exact if_pos h

theorem isRegex_noop {field : String} {errors : Errors} {v : String}
    {rx : Regexp} {message : String} (h : rx.MatchString v = true) :
    IsRegex field errors v rx message = errors := by
  simp [IsRegex, h]

theorem isRegex_violated {field : String} {errors : Errors} {v : String}
    {rx : Regexp} {message : String} (h : rx.MatchString v = false) :
    IsRegex field errors v rx message = AddError field errors message := by
  simp [IsRegex, h]

theorem isEmail_noop {field : String} {errors : Errors} {v : String}
    (h : EmailRx.MatchString v = true) : IsEmail field errors v = errors :=
  isRegex_noop h

theorem isEmail_violated {field : String} {errors : Errors} {v : String}
    (h : EmailRx.MatchString v = false) :
    IsEmail field errors v =
      AddError field errors "Email address is invalid" :=
  isRegex_violated h

/-! ### Semantics of the email pattern `^\S+@\S+$` -/

theorem nonEmptyNonSpace_iff (l : List Char) :
    nonEmptyNonSpace l = true ↔ l ≠ [] ∧ ∀ c ∈ l, isGoSpace c = false := by
  cases l with
  | nil => simp [nonEmptyNonSpace]
  | cons c rest =>
    simp [nonEmptyNonSpace, List.all_eq_true, Bool.and_eq_true,
      Bool.not_eq_true', List.forall_mem_cons]

theorem emailAfterOne_iff (l : List Char) :
    emailAfterOne l = true ↔
      ∃ a b, l = a ++ '@' :: b ∧ b ≠ [] ∧
        (∀ c ∈ a, isGoSpace c = false) ∧ ∀ c ∈ b, isGoSpace c = false := by
  induction l with
  | nil =>
    constructor
    · intro h; exact absurd h (by simp [emailAfterOne])
    · rintro ⟨a, b, heq, -, -, -⟩
      exact absurd heq.symm (by simp)
  | cons c rest ih =>
    have hdef : emailAfterOne (c :: rest) =
        ((decide (c = '@') && nonEmptyNonSpace rest) ||
          (!(isGoSpace c) && emailAfterOne rest)) := rfl
    constructor
    · intro h
      rw [hdef] at h
      simp only [Bool.or_eq_true, Bool.and_eq_true, Bool.not_eq_true'] at h
      rcases h with ⟨hc, hne⟩ | ⟨hc, hrest⟩
      · have hc' : c = '@' := of_decide_eq_true hc
        obtain ⟨hb, hall⟩ := (nonEmptyNonSpace_iff rest).mp hne
        exact ⟨[], rest, by rw [hc']; rfl, hb, by simp, hall⟩
      · obtain ⟨a, b, heq, hb, ha, hball⟩ := ih.mp hrest
        refine ⟨c :: a, b, by rw [heq]; rfl, hb, ?_, hball⟩
        intro d hd
        rcases List.mem_cons.mp hd with rfl | hd'
        · exact hc
        · exact ha d hd'
    · rintro ⟨a, b, heq, hb, ha, hball⟩
      rw [hdef]
      simp only [Bool.or_eq_true, Bool.and_eq_true, Bool.not_eq_true']
      cases a with
      | nil =>
        simp only [List.nil_append] at heq
        injection heq with h1 h2
        refine Or.inl ⟨decide_eq_true h1, ?_⟩
        refine (nonEmptyNonSpace_iff rest).mpr ⟨?_, ?_⟩
        · rw [h2]; exact hb
        · rw [h2]; exact hball
      | cons c' a' =>
        simp only [List.cons_append] at heq
        injection heq with h1 h2
        refine Or.inr ⟨?_, ?_⟩
        · exact h1 ▸ ha c' (List.mem_cons_self c' a')
        · refine (ih.mpr ⟨a', b, h2, hb, ?_, hball⟩)
          exact fun d hd => ha d (List.mem_cons_of_mem c' hd)

theorem emailMatch_iff (l : List Char) :
    emailMatch l = true ↔
      (∀ c ∈ l, isGoSpace c = false) ∧
        ∃ a b, l = a ++ '@' :: b ∧ a ≠ [] ∧ b ≠ [] := by
  cases l with
  | nil =>
    constructor
    · intro h; exact absurd h (by simp [emailMatch])
    · rintro ⟨-, a, b, heq, ha, -⟩
      rcases List.append_eq_nil.mp heq.symm with ⟨-, h2⟩
      exact absurd h2 (by simp)
  | cons c rest =>
    have hdef : emailMatch (c :: rest) =
        (!(isGoSpace c) && emailAfterOne rest) := rfl
    constructor
    · intro h
      rw [hdef] at h
      simp only [Bool.and_eq_true, Bool.not_eq_true'] at h
      obtain ⟨hc', hrest⟩ := h
      obtain ⟨a, b, heq, hb, ha, hball⟩ := (emailAfterOne_iff rest).mp hrest
      refine ⟨?_, c :: a, b, by rw [heq]; rfl, by simp, hb⟩
      intro d hd
      rcases List.mem_cons.mp hd with rfl | hd'
      · exact hc'
      · rw [heq] at hd'
        rcases List.mem_append.mp hd' with h1 | h2
        · exact ha d h1
        · rcases List.mem_cons.mp h2 with rfl | h3
          · decide
          · exact hball d h3
    · rintro ⟨hall, a, b, heq, hane, hb⟩
      rw [hdef]
      cases a with
      | nil => exact absurd rfl hane
      | cons c' a' =>
        simp only [List.cons_append] at heq
        injection heq with h1 h2
        simp only [Bool.and_eq_true, Bool.not_eq_true']
        refine ⟨?_, ?_⟩
        · exact hall c (List.mem_cons_self c rest)
        · refine (emailAfterOne_iff rest).mpr ⟨a', b, h2, hb, ?_, ?_⟩
          · intro d hd
            refine hall d ?_
            rw [h2]
            exact List.mem_cons_of_mem c (List.mem_append_left _ hd)
          · intro d hd
            refine hall d ?_
            rw [h2]
            exact List.mem_cons_of_mem c
              (List.mem_append_right _ (List.mem_cons_of_mem '@' hd))

theorem regex_wrapped_noop {field : String} {errors : Errors} {v : String}
    {rx : Regexp} {message : String} (h : rx.MatchString v = true) :
    Regex field errors v rx message = errors := by
  simp [Regex, h, Validate]

theorem regex_wrapped_violated {field : String} {errors : Errors}
    {v : String} {rx : Regexp} {message : String}
    (h : rx.MatchString v = false) :
    Regex field errors v rx message =
      AddError field errors (fmtErrorf message) := by
  simp only [Regex, h, Bool.not_false, if_pos]
  rfl

/-! ## Claims -/

/-- C1: for every check function of either family, every field name, every
accumulator and every input, a satisfied constraint leaves the accumulator
completely unchanged, and a violated one appends exactly one message under
the field's key and changes nothing else. -/
theorem checks_noop_on_pass_append_one_on_fail :
    ∀ (field : String) (errors : Errors),
      (∀ (v : String) (m n : Int),
        (¬((v.utf8ByteSize : Int) < m ∨ (v.utf8ByteSize : Int) > n) →
          IsStringLength field errors v m n = errors ∧
            StringLength field errors v m n = errors) ∧
        (((v.utf8ByteSize : Int) < m ∨ (v.utf8ByteSize : Int) > n) →
          AppendsOne field errors (IsStringLength field errors v m n) ∧
            AppendsOne field errors (StringLength field errors v m n))) ∧
      (∀ (v m n : Int),
        (¬(v < m ∨ v > n) →
          IsNumberBetween field errors v m n = errors ∧
            NumberBetween field errors v m n = errors) ∧
        ((v < m ∨ v > n) →
          AppendsOne field errors (IsNumberBetween field errors v m n) ∧
            AppendsOne field errors (NumberBetween field errors v m n))) ∧
      (∀ (Q U : Type) [DecidableEq U] (v : Lengthable Q U) (m n : Int),
        (¬((v.len : Int) < m ∨ (v.len : Int) > n) →
          IsSize field errors v m n = errors ∧
            Size field errors v m n = errors) ∧
        (((v.len : Int) < m ∨ (v.len : Int) > n) →
          AppendsOne field errors (IsSize field errors v m n) ∧
            AppendsOne field errors (Size field errors v m n))) ∧
      (∀ (Q U : Type) [DecidableEq U] (v : Lengthable Q U) (n : Int),
        (¬((v.len : Int) < n) →
          IsMinSize field errors v n = errors ∧
            MinSize field errors v n = errors) ∧
        (((v.len : Int) < n) →
          AppendsOne field errors (IsMinSize field errors v n) ∧
            AppendsOne field errors (MinSize field errors v n))) ∧
      (∀ (v : String) (rx : Regexp) (message : String),
        (rx.MatchString v = true →
          IsRegex field errors v rx message = errors ∧
            Regex field errors v rx message = errors) ∧
        (rx.MatchString v = false →
          AppendsOne field errors (IsRegex field errors v rx message) ∧
            AppendsOne field errors (Regex field errors v rx message))) ∧
      (∀ (v : String),
        (EmailRx.MatchString v = true →
          IsEmail field errors v = errors ∧ Email field errors v = errors) ∧
        (EmailRx.MatchString v = false →
          AppendsOne field errors (IsEmail field errors v) ∧
            AppendsOne field errors (Email field errors v))) := by
  intro field errors
  refine ⟨?_, ?_, ?_, ?_, ?_, ?_⟩
  · intro v m n
    constructor
    · intro h
      exact ⟨isStringLength_noop h,
        by rw [stringLength_eq_isStringLength]; exact isStringLength_noop h⟩
    · intro h
      constructor
      · rw [isStringLength_violated h]; exact addError_appendsOne _ _ _
      · rw [stringLength_eq_isStringLength, isStringLength_violated h]
        exact addError_appendsOne _ _ _
  · intro v m n
    constructor
    · intro h
      exact ⟨isNumberBetween_noop h,
        by rw [numberBetween_eq_isNumberBetween]; exact isNumberBetween_noop h⟩
    · intro h
      constructor
      · rw [isNumberBetween_violated h]; exact addError_appendsOne _ _ _
      · rw [numberBetween_eq_isNumberBetween, isNumberBetween_violated h]
        exact addError_appendsOne _ _ _
  · intro Q U instU v m n
    constructor
    · intro h
      exact ⟨isSize_noop h, by rw [size_eq_isSize]; exact isSize_noop h⟩
    · intro h
      constructor
      · rw [isSize_violated h]; exact addError_appendsOne _ _ _
      · rw [size_eq_isSize, isSize_violated h]
        exact addError_appendsOne _ _ _
  · intro Q U instU v n
    constructor
    · intro h
      exact ⟨isMinSize_noop h,
        by rw [minSize_eq_isMinSize]; exact isMinSize_noop h⟩
    · intro h
      constructor
      · rw [isMinSize_violated h]; exact addError_appendsOne _ _ _
      · rw [minSize_eq_isMinSize, isMinSize_violated h]
        exact addError_appendsOne _ _ _
  · intro v rx message
    constructor
    · intro h
      exact ⟨isRegex_noop h, regex_wrapped_noop h⟩
    · intro h
      constructor
      · rw [isRegex_violated h]; exact addError_appendsOne _ _ _
      · rw [regex_wrapped_violated h]; exact addError_appendsOne _ _ _
  · intro v
    constructor
    · intro h
      exact ⟨isEmail_noop h, by rw [email_eq_isEmail]; exact isEmail_noop h⟩
    · intro h
      constructor
      · rw [isEmail_violated h]; exact addError_appendsOne _ _ _
      · rw [email_eq_isEmail, isEmail_violated h]
        exact addError_appendsOne _ _ _

/-- Witness for C1: a failing length check with equal bounds appends one
message; a passing numeric check leaves the empty accumulator unchanged. -/
theorem checks_noop_on_pass_append_one_on_fail_witness :
    AppendsOne "f" emptyErrors (IsStringLength "f" emptyErrors "ab" 3 3) ∧
      IsNumberBetween "f" emptyErrors 5 1 9 = emptyErrors :=
  ⟨(((checks_noop_on_pass_append_one_on_fail "f" emptyErrors).1
      "ab" 3 3).2 (by decide)).1,
    (((checks_noop_on_pass_append_one_on_fail "f" emptyErrors).2.1
      5 1 9).1 (by decide)).1⟩

/-- C9: a check invoked with field name `f` never changes the message
sequence of any other field name `g ≠ f` (both families, all checks). -/
theorem checks_frame_other_fields :
    ∀ (field g : String), g ≠ field → ∀ (errors : Errors),
      (∀ (v : String) (m n : Int),
        IsStringLength field errors v m n g = errors g ∧
          StringLength field errors v m n g = errors g) ∧
      (∀ (v m n : Int),
        IsNumberBetween field errors v m n g = errors g ∧
          NumberBetween field errors v m n g = errors g) ∧
      (∀ (Q U : Type) [DecidableEq U] (v : Lengthable Q U) (m n : Int),
        IsSize field errors v m n g = errors g ∧
          Size field errors v m n g = errors g) ∧
      (∀ (Q U : Type) [DecidableEq U] (v : Lengthable Q U) (n : Int),
        IsMinSize field errors v n g = errors g ∧
          MinSize field errors v n g = errors g) ∧
      (∀ (v : String) (rx : Regexp) (message : String),
        IsRegex field errors v rx message g = errors g ∧
          Regex field errors v rx message g = errors g) ∧
      (∀ (v : String),
        IsEmail field errors v g = errors g ∧
          Email field errors v g = errors g) := by
  intro field g hg errors
  refine ⟨?_, ?_, ?_, ?_, ?_, ?_⟩
  · intro v m n
    refine ⟨?_, ?_⟩
    · by_cases hc : ((v.utf8ByteSize : Int) < m ∨ (v.utf8ByteSize : Int) > n)
      · rw [isStringLength_violated hc]; exact addError_other hg errors _
      · rw [isStringLength_noop hc]
    · rw [stringLength_eq_isStringLength]
      by_cases hc : ((v.utf8ByteSize : Int) < m ∨ (v.utf8ByteSize : Int) > n)
      · rw [isStringLength_violated hc]; exact addError_other hg errors _
      · rw [isStringLength_noop hc]
  · intro v m n
    refine ⟨?_, ?_⟩
    · by_cases hc : (v < m ∨ v > n)
      · rw [isNumberBetween_violated hc]; exact addError_other hg errors _
      · rw [isNumberBetween_noop hc]
    · rw [numberBetween_eq_isNumberBetween]
      by_cases hc : (v < m ∨ v > n)
      · rw [isNumberBetween_violated hc]; exact addError_other hg errors _
      · rw [isNumberBetween_noop hc]
  · intro Q U instU v m n
    refine ⟨?_, ?_⟩
    · by_cases hc : ((v.len : Int) < m ∨ (v.len : Int) > n)
      · rw [isSize_violated hc]; exact addError_other hg errors _
      · rw [isSize_noop hc]
    · rw [size_eq_isSize]
      by_cases hc : ((v.len : Int) < m ∨ (v.len : Int) > n)
      · rw [isSize_violated hc]; exact addError_other hg errors _
      · rw [isSize_noop hc]
  · intro Q U instU v n
    refine ⟨?_, ?_⟩
    · by_cases hc : ((v.len : Int) < n)
      · rw [isMinSize_violated hc]; exact addError_other hg errors _
      · rw [isMinSize_noop hc]
    · rw [minSize_eq_isMinSize]
      by_cases hc : ((v.len : Int) < n)
      · rw [isMinSize_violated hc]; exact addError_other hg errors _
      · rw [isMinSize_noop hc]
  · intro v rx message
    refine ⟨?_, ?_⟩
    · cases hc : rx.MatchString v
      · rw [isRegex_violated hc]; exact addError_other hg errors _
      · rw [isRegex_noop hc]
    · cases hc : rx.MatchString v
      · rw [regex_wrapped_violated hc]; exact addError_other hg errors _
      · rw [regex_wrapped_noop hc]
  · intro v
    refine ⟨?_, ?_⟩
    · cases hc : EmailRx.MatchString v
      · rw [isEmail_violated hc]; exact addError_other hg errors _
      · rw [isEmail_noop hc]
    · rw [email_eq_isEmail]
      cases hc : EmailRx.MatchString v
      · rw [isEmail_violated hc]; exact addError_other hg errors _
      · rw [isEmail_noop hc]

/-- Witness for C9: a failing email check against field "f" leaves field
"g" untouched. -/
theorem checks_frame_other_fields_witness :
    IsEmail "f" emptyErrors "noatsign" "g" = emptyErrors "g" :=
  ((checks_frame_other_fields "f" "g" (by decide) emptyErrors).2.2.2.2.2
    "noatsign").1

theorem appends_iff_of_eqs {field : String} {errors result : Errors}
    {msg : String} {cond : Prop}
    (hv : cond → result = AddError field errors msg)
    (hn : ¬cond → result = errors) :
    (∃ e, result field = errors field ++ [e]) ↔ cond := by
  constructor
  · rintro ⟨e, he⟩
    by_contra hc
    rw [hn hc] at he
    exact no_append_self _ ⟨e, he⟩
  · intro hc
    rw [hv hc, addError_self]
    exact ⟨msg, rfl⟩

/-- C2: for each range check with inclusive bounds m, n — string length
over `len(value)` (the byte count), numeric range over the value itself for
every Go integer type, container size over the element/key count — exactly
one message is appended iff the measured quantity is `< m` or `> n`; when
`m ≤ quantity ≤ n` the accumulator is not mutated at all. -/
theorem range_checks_append_iff :
    ∀ (field : String) (errors : Errors),
      (∀ (v : String) (m n : Int),
        ((∃ e, IsStringLength field errors v m n field =
            errors field ++ [e]) ↔
          ((v.utf8ByteSize : Int) < m ∨ (v.utf8ByteSize : Int) > n)) ∧
        (m ≤ (v.utf8ByteSize : Int) ∧ (v.utf8ByteSize : Int) ≤ n →
          IsStringLength field errors v m n = errors)) ∧
      (∀ (t : GoIntTy) (v m n : Int),
        t.inRange v → t.inRange m → t.inRange n →
        ((∃ e, IsNumberBetween field errors v m n field =
            errors field ++ [e]) ↔ (v < m ∨ v > n)) ∧
        (m ≤ v ∧ v ≤ n → IsNumberBetween field errors v m n = errors)) ∧
      (∀ (Q U : Type) [DecidableEq U] (v : Lengthable Q U) (m n : Int),
        ((∃ e, IsSize field errors v m n field = errors field ++ [e]) ↔
          ((v.len : Int) < m ∨ (v.len : Int) > n)) ∧
        (m ≤ (v.len : Int) ∧ (v.len : Int) ≤ n →
          IsSize field errors v m n = errors)) := by
  intro field errors
  refine ⟨?_, ?_, ?_⟩
  · intro v m n
    constructor
    · exact appends_iff_of_eqs (fun h => isStringLength_violated h)
        (fun h => isStringLength_noop h)
    · intro h
      exact isStringLength_noop (by omega)
  · intro t v m n hv hm hn
    constructor
    · exact appends_iff_of_eqs (fun h => isNumberBetween_violated h)
        (fun h => isNumberBetween_noop h)
    · intro h
      exact isNumberBetween_noop (by omega)
  · intro Q U instU v m n
    constructor
    · exact appends_iff_of_eqs (fun h => isSize_violated h)
        (fun h => isSize_noop h)
    · intro h
      exact isSize_noop (by omega)

/-- Witness for C2: the numeric check at the int64 boundary value
`2^63 - 1` inside its bounds, and a length check inside its bounds, leave
the accumulator unchanged. -/
theorem range_checks_append_iff_witness :
    IsNumberBetween "f" emptyErrors (2 ^ 63 - 1) 0 (2 ^ 63 - 1) =
        emptyErrors ∧
      IsStringLength "f" emptyErrors "ab" 2 3 = emptyErrors :=
  ⟨(((range_checks_append_iff "f" emptyErrors).2.1 ⟨true, 64⟩
      (2 ^ 63 - 1) 0 (2 ^ 63 - 1) (by decide) (by decide) (by decide)).2
      (by decide)),
    (((range_checks_append_iff "f" emptyErrors).1 "ab" 2 3).2 (by decide))⟩

/-- C3 counterexample: with caller message `"%d"` (a fmt verb) and a
non-matching value, `IsRegex` appends `"%d"` verbatim while the wrapped
`Regex` feeds it through `fmt.Errorf` and appends `"%!d(MISSING)"` — the
two families leave the accumulator in different final states. -/
theorem families_differ_on_format_verb_message :
    IsRegex "f" emptyErrors "x" neverRx "%d" "f" = ["%d"] ∧
      Regex "f" emptyErrors "x" neverRx "%d" "f" = ["%!d(MISSING)"] ∧
      ("%d" : String) ≠ "%!d(MISSING)" :=
  ⟨by decide, by decide, by decide⟩

/-- C3 amended: the two families leave the accumulator in the same final
state for the length, numeric, size, min-size and email checks at all
inputs, and for the pattern check whenever the caller-supplied message
contains no `%` character (otherwise `fmt.Errorf` rewrites it). -/
theorem families_agree :
    ∀ (field : String) (errors : Errors),
      (∀ (v : String) (m n : Int),
        StringLength field errors v m n = IsStringLength field errors v m n) ∧
      (∀ (v m n : Int),
        NumberBetween field errors v m n =
          IsNumberBetween field errors v m n) ∧
      (∀ (Q U : Type) [DecidableEq U] (v : Lengthable Q U) (m n : Int),
        Size field errors v m n = IsSize field errors v m n) ∧
      (∀ (Q U : Type) [DecidableEq U] (v : Lengthable Q U) (n : Int),
        MinSize field errors v n = IsMinSize field errors v n) ∧
      (∀ (v : String) (rx : Regexp) (message : String), pctFree message →
        Regex field errors v rx message =
          IsRegex field errors v rx message) ∧
      (∀ (v : String), Email field errors v = IsEmail field errors v) := by
  intro field errors
  exact ⟨stringLength_eq_isStringLength field errors,
    numberBetween_eq_isNumberBetween field errors,
    fun Q U instU => size_eq_isSize field errors,
    fun Q U instU => minSize_eq_isMinSize field errors,
    fun v rx message h => regex_eq_isRegex_of_pctFree field errors v rx h,
    email_eq_isEmail field errors⟩

/-- Witness for C3 (amended): at the `%`-free message "bad" the two pattern
checks agree. -/
theorem families_agree_witness :
    Regex "f" emptyErrors "xyz" neverRx "bad" =
      IsRegex "f" emptyErrors "xyz" neverRx "bad" :=
  (families_agree "f" emptyErrors).2.2.2.2.1 "xyz" neverRx "bad" (by decide)

/-- C4 counterexample: the size check on an empty slice with bounds 2,2
appends "Must have exactly 2 entries, but had 0", which is neither the
claimed template "Must have exactly 2 entries" nor the string-length
template with one word substituted ("Must be exactly 2 entries long") —
the size messages differ from the length ones by more than the word
"entries". -/
theorem size_message_differs_from_claimed_template :
    IsSize "f" emptyErrors (Lengthable.slice [] : Lengthable Nat Nat) 2 2
        "f" = ["Must have exactly 2 entries, but had 0"] ∧
      ("Must have exactly 2 entries, but had 0" : String) ≠
        "Must have exactly 2 entries" ∧
      ("Must have exactly 2 entries, but had 0" : String) ≠
        "Must be exactly 2 entries long" :=
  ⟨by decide, by decide, by decide⟩

/-- C4 amended: on violation the size check appends "Must have exactly {m}
entries, but had {len}" when m == n and "Must have between {m} and {n}
entries, but had {len}" otherwise (both families) — i.e. unlike the
string-length messages it opens with "have", reports the actual count, and
has no trailing "long". -/
theorem size_check_messages :
    ∀ (field : String) (errors : Errors) (Q U : Type) [DecidableEq U]
      (v : Lengthable Q U) (m n : Int),
      ((v.len : Int) < m ∨ (v.len : Int) > n) →
      (m = n →
        IsSize field errors v m n field = errors field ++
          ["Must have exactly " ++ toString m ++ " entries, but had " ++
            toString v.len] ∧
        Size field errors v m n field = errors field ++
          ["Must have exactly " ++ toString m ++ " entries, but had " ++
            toString v.len]) ∧
      (m ≠ n →
        IsSize field errors v m n field = errors field ++
          ["Must have between " ++ toString m ++ " and " ++ toString n ++
            " entries, but had " ++ toString v.len] ∧
        Size field errors v m n field = errors field ++
          ["Must have between " ++ toString m ++ " and " ++ toString n ++
            " entries, but had " ++ toString v.len]) := by
  intro field errors Q U instU v m n h
  constructor
  · intro hmn
    constructor
    · rw [isSize_violated h, addError_self, if_pos hmn]
    · rw [size_eq_isSize, isSize_violated h, addError_self, if_pos hmn]
  · intro hmn
    constructor
    · rw [isSize_violated h, addError_self, if_neg hmn]
    · rw [size_eq_isSize, isSize_violated h, addError_self, if_neg hmn]

/-- Witness for C4 (amended) at an empty slice with bounds 2,2 and a
two-key map with bounds 0,1. -/
theorem size_check_messages_witness :
    IsSize "f" emptyErrors (Lengthable.slice [] : Lengthable Nat Nat) 2 2
        "f" = emptyErrors "f" ++ ["Must have exactly " ++ toString (2 : Int)
          ++ " entries, but had " ++
          toString (Lengthable.slice [] : Lengthable Nat Nat).len] ∧
      IsSize "f" emptyErrors
          (Lengthable.gomap [(1, 5), (2, 6)] : Lengthable Nat Nat) 0 1 "f" =
        emptyErrors "f" ++ ["Must have between " ++ toString (0 : Int) ++
          " and " ++ toString (1 : Int) ++ " entries, but had " ++
          toString (Lengthable.gomap [(1, 5), (2, 6)] :
            Lengthable Nat Nat).len] :=
  ⟨((size_check_messages "f" emptyErrors Nat Nat (Lengthable.slice []) 2 2
      (by decide)).1 (by decide)).1,
    ((size_check_messages "f" emptyErrors Nat Nat
      (Lengthable.gomap [(1, 5), (2, 6)]) 0 1 (by decide)).2
      (by decide)).1⟩

/-- C5 counterexample: on failure the wrapped pattern check does not append
the caller-supplied message character for character: the message "%d"
arrives in the accumulator as "%!d(MISSING)". -/
theorem regex_wrapped_message_not_verbatim :
    Regex "f" emptyErrors "x" neverRx "%d" "f" = ["%!d(MISSING)"] ∧
      ("%!d(MISSING)" : String) ≠ "%d" :=
  ⟨by decide, by decide⟩

/-- C5 amended: on a successful match neither pattern check adds an entry;
on failure `IsRegex` appends exactly the caller-supplied message, while the
wrapped `Regex` appends `fmt.Errorf(message)`, which is the message itself
exactly when the message is `%`-free. -/
theorem regex_message_semantics :
    ∀ (field : String) (errors : Errors) (v : String) (rx : Regexp)
      (message : String),
      (rx.MatchString v = true →
        IsRegex field errors v rx message = errors ∧
          Regex field errors v rx message = errors) ∧
      (rx.MatchString v = false →
        IsRegex field errors v rx message field =
            errors field ++ [message] ∧
          Regex field errors v rx message field =
            errors field ++ [fmtErrorf message] ∧
          (pctFree message → fmtErrorf message = message)) := by
  intro field errors v rx message
  constructor
  · intro h
    exact ⟨isRegex_noop h, regex_wrapped_noop h⟩
  · intro h
    refine ⟨?_, ?_, fun hp => fmtErrorf_eq_self hp⟩
    · rw [isRegex_violated h, addError_self]
    · rw [regex_wrapped_violated h, addError_self]

/-- Witness for C5 (amended): the matching and failing branches at concrete
inputs. -/
theorem regex_message_semantics_witness :
    IsRegex "f" emptyErrors "xyz" neverRx "bad" "f" =
        emptyErrors "f" ++ ["bad"] ∧
      IsEmail "f" emptyErrors "a@b" = emptyErrors :=
  ⟨((regex_message_semantics "f" emptyErrors "xyz" neverRx "bad").2
      (by decide)).1,
    ((regex_message_semantics "f" emptyErrors "a@b" EmailRx
      "Email address is invalid").1 (by decide)).1⟩

/-- C6 counterexample: "a@b@c" contains no whitespace but does not consist
of exactly one `@` separating two runs (it has two `@`), so the claim
requires the message to be appended; the code's regex `^\S+@\S+$` matches
it (`\S` also matches `@`) and both email checks append nothing. -/
theorem email_accepts_two_ats :
    IsEmail "f" emptyErrors "a@b@c" "f" = [] ∧
      Email "f" emptyErrors "a@b@c" "f" = [] ∧
      EmailRx.MatchString "a@b@c" = true ∧
      List.count '@' "a@b@c".data = 2 :=
  ⟨by decide, by decide, by decide, by decide⟩

/-- C6 amended: the email check appends "Email address is invalid" iff the
value contains whitespace or admits no decomposition `a ++ "@" ++ b` with
`a` and `b` non-empty and whitespace-free — at least one interior `@`, not
exactly one (`a` and `b` may contain further `@`). -/
theorem email_check_characterization :
    ∀ (field : String) (errors : Errors) (v : String),
      (EmailRx.MatchString v = true →
        IsEmail field errors v = errors ∧ Email field errors v = errors) ∧
      (EmailRx.MatchString v = false →
        IsEmail field errors v field =
            errors field ++ ["Email address is invalid"] ∧
          Email field errors v field =
            errors field ++ ["Email address is invalid"]) ∧
      (EmailRx.MatchString v = true ↔
        (∀ c ∈ v.data, isGoSpace c = false) ∧
          ∃ a b, v.data = a ++ '@' :: b ∧ a ≠ [] ∧ b ≠ []) := by
  intro field errors v
  refine ⟨?_, ?_, ?_⟩
  · intro h
    exact ⟨isEmail_noop h, by rw [email_eq_isEmail]; exact isEmail_noop h⟩
  · intro h
    constructor
    · rw [isEmail_violated h, addError_self]
    · rw [email_eq_isEmail, isEmail_violated h, addError_self]
  · exact emailMatch_iff v.data

/-- Witness for C6 (amended): "a b@c" (whitespace) fails with the fixed
message; "noatsign" fails; "a@b" passes. -/
theorem email_check_characterization_witness :
    IsEmail "f" emptyErrors "a b@c" "f" =
        emptyErrors "f" ++ ["Email address is invalid"] ∧
      IsEmail "g" emptyErrors "noatsign" "g" =
        emptyErrors "g" ++ ["Email address is invalid"] ∧
      IsEmail "f" emptyErrors "a@b" = emptyErrors :=
  ⟨(((email_check_characterization "f" emptyErrors "a b@c").2.1
      (by decide)).1),
    (((email_check_characterization "g" emptyErrors "noatsign").2.1
      (by decide)).1),
    ((email_check_characterization "f" emptyErrors "a@b").1
      (by decide)).1⟩

/-- C7: on violation the minimum-size check's message is "Must have a
minimum of {n} {entry-word}, but had {len}", with the singular "entry"
exactly when n ≤ 1 and the plural "entries" exactly when n > 1 (both
families). -/
theorem minsize_message_pluralization :
    ∀ (field : String) (errors : Errors) (Q U : Type) [DecidableEq U]
      (v : Lengthable Q U) (n : Int), (v.len : Int) < n →
      (n ≤ 1 →
        IsMinSize field errors v n field = errors field ++
          ["Must have a minimum of " ++ toString n ++ " " ++ "entry" ++
            ", but had " ++ toString v.len] ∧
        MinSize field errors v n field = errors field ++
          ["Must have a minimum of " ++ toString n ++ " " ++ "entry" ++
            ", but had " ++ toString v.len]) ∧
      (n > 1 →
        IsMinSize field errors v n field = errors field ++
          ["Must have a minimum of " ++ toString n ++ " " ++ "entries" ++
            ", but had " ++ toString v.len] ∧
        MinSize field errors v n field = errors field ++
          ["Must have a minimum of " ++ toString n ++ " " ++ "entries" ++
            ", but had " ++ toString v.len]) := by
  intro field errors Q U instU v n h
  constructor
  · intro hn
    constructor
    · rw [isMinSize_violated h, addError_self, if_neg (by omega)]
    · rw [minSize_eq_isMinSize, isMinSize_violated h, addError_self,
        if_neg (by omega)]
  · intro hn
    constructor
    · rw [isMinSize_violated h, addError_self, if_pos hn]
    · rw [minSize_eq_isMinSize, isMinSize_violated h, addError_self,
        if_pos hn]

/-- Witness for C7: n = 1 on an empty slice gives singular "entry";
n = 2 on a one-key map gives plural "entries". -/
theorem minsize_message_pluralization_witness :
    IsMinSize "f" emptyErrors (Lengthable.slice [] : Lengthable Nat Nat) 1
        "f" = emptyErrors "f" ++ ["Must have a minimum of " ++
          toString (1 : Int) ++ " " ++ "entry" ++ ", but had " ++
          toString (Lengthable.slice [] : Lengthable Nat Nat).len] ∧
      IsMinSize "f" emptyErrors
          (Lengthable.gomap [(7, 1)] : Lengthable Nat Nat) 2 "f" =
        emptyErrors "f" ++ ["Must have a minimum of " ++
          toString (2 : Int) ++ " " ++ "entries" ++ ", but had " ++
          toString (Lengthable.gomap [(7, 1)] : Lengthable Nat Nat).len] :=
  ⟨((minsize_message_pluralization "f" emptyErrors Nat Nat
      (Lengthable.slice []) 1 (by decide)).1 (by decide)).1,
    ((minsize_message_pluralization "f" emptyErrors Nat Nat
      (Lengthable.gomap [(7, 1)]) 2 (by decide)).2 (by decide)).1⟩

/-- C8: every failing length, numeric-range and size check appends the
"exactly" message when its bounds are equal and the "between" message
naming both bounds when m < n (both families). -/
theorem exact_vs_between_messages :
    ∀ (field : String) (errors : Errors),
      (∀ (v : String) (m : Int),
        ((v.utf8ByteSize : Int) < m ∨ (v.utf8ByteSize : Int) > m) →
        IsStringLength field errors v m m field = errors field ++
            ["Must be exactly " ++ toString m ++ " characters long"] ∧
          StringLength field errors v m m field = errors field ++
            ["Must be exactly " ++ toString m ++ " characters long"]) ∧
      (∀ (v : String) (m n : Int), m < n →
        ((v.utf8ByteSize : Int) < m ∨ (v.utf8ByteSize : Int) > n) →
        IsStringLength field errors v m n field = errors field ++
            ["Must be between " ++ toString m ++ " and " ++ toString n ++
              " characters long"] ∧
          StringLength field errors v m n field = errors field ++
            ["Must be between " ++ toString m ++ " and " ++ toString n ++
              " characters long"]) ∧
      (∀ (v m : Int), (v < m ∨ v > m) →
        IsNumberBetween field errors v m m field = errors field ++
            ["Must be exactly " ++ toString m ++ ", but was " ++
              toString v] ∧
          NumberBetween field errors v m m field = errors field ++
            ["Must be exactly " ++ toString m ++ ", but was " ++
              toString v]) ∧
      (∀ (v m n : Int), m < n → (v < m ∨ v > n) →
        IsNumberBetween field errors v m n field = errors field ++
            ["Must be between " ++ toString m ++ " and " ++ toString n ++
              ", but was " ++ toString v] ∧
          NumberBetween field errors v m n field = errors field ++
            ["Must be between " ++ toString m ++ " and " ++ toString n ++
              ", but was " ++ toString v]) ∧
      (∀ (Q U : Type) [DecidableEq U] (v : Lengthable Q U) (m : Int),
        ((v.len : Int) < m ∨ (v.len : Int) > m) →
        IsSize field errors v m m field = errors field ++
            ["Must have exactly " ++ toString m ++ " entries, but had " ++
              toString v.len] ∧
          Size field errors v m m field = errors field ++
            ["Must have exactly " ++ toString m ++ " entries, but had " ++
              toString v.len]) ∧
      (∀ (Q U : Type) [DecidableEq U] (v : Lengthable Q U) (m n : Int),
        m < n → ((v.len : Int) < m ∨ (v.len : Int) > n) →
        IsSize field errors v m n field = errors field ++
            ["Must have between " ++ toString m ++ " and " ++ toString n ++
              " entries, but had " ++ toString v.len] ∧
          Size field errors v m n field = errors field ++
            ["Must have between " ++ toString m ++ " and " ++ toString n ++
              " entries, but had " ++ toString v.len]) := by
  intro field errors
  refine ⟨?_, ?_, ?_, ?_, ?_, ?_⟩
  · intro v m h
    constructor
    · rw [isStringLength_violated h, addError_self, if_pos rfl]
    · rw [stringLength_eq_isStringLength, isStringLength_violated h,
        addError_self, if_pos rfl]
  · intro v m n hmn h
    constructor
    · rw [isStringLength_violated h, addError_self, if_neg (by omega)]
    · rw [stringLength_eq_isStringLength, isStringLength_violated h,
        addError_self, if_neg (by omega)]
  · intro v m h
    constructor
    · rw [isNumberBetween_violated h, addError_self, if_pos rfl]
    · rw [numberBetween_eq_isNumberBetween, isNumberBetween_violated h,
        addError_self, if_pos rfl]
  · intro v m n hmn h
    constructor
    · rw [isNumberBetween_violated h, addError_self, if_neg (by omega)]
    · rw [numberBetween_eq_isNumberBetween, isNumberBetween_violated h,
        addError_self, if_neg (by omega)]
  · intro Q U instU v m h
    constructor
    · rw [isSize_violated h, addError_self, if_pos rfl]
    · rw [size_eq_isSize, isSize_violated h, addError_self, if_pos rfl]
  · intro Q U instU v m n hmn h
    constructor
    · rw [isSize_violated h, addError_self, if_neg (by omega)]
    · rw [size_eq_isSize, isSize_violated h, addError_self,
        if_neg (by omega)]

/-- Witness for C8: a failing length check with equal bounds 3,3 appends
the "exactly" message; with bounds 3 < 5 it appends the "between"
message. -/
theorem exact_vs_between_messages_witness :
    IsStringLength "f" emptyErrors "ab" 3 3 "f" = emptyErrors "f" ++
        ["Must be exactly " ++ toString (3 : Int) ++ " characters long"] ∧
      IsStringLength "f" emptyErrors "ab" 3 5 "f" = emptyErrors "f" ++
        ["Must be between " ++ toString (3 : Int) ++ " and " ++
          toString (5 : Int) ++ " characters long"] :=
  ⟨((exact_vs_between_messages "f" emptyErrors).1 "ab" 3 (by decide)).1,
    ((exact_vs_between_messages "f" emptyErrors).2.1 "ab" 3 5 (by decide)
      (by decide)).1⟩

/-- C10: with inverted bounds m > n the length, numeric and size range
checks report a violation for every value, appending the "between" message
naming the inverted bounds — the code never checks or normalises
m ≤ n. -/
theorem inverted_bounds_always_fail :
    ∀ (field : String) (errors : Errors) (m n : Int), m > n →
      (∀ v : String,
        IsStringLength field errors v m n field = errors field ++
          ["Must be between " ++ toString m ++ " and " ++ toString n ++
            " characters long"]) ∧
      (∀ v : Int,
        IsNumberBetween field errors v m n field = errors field ++
          ["Must be between " ++ toString m ++ " and " ++ toString n ++
            ", but was " ++ toString v]) ∧
      (∀ (Q U : Type) [DecidableEq U] (v : Lengthable Q U),
        IsSize field errors v m n field = errors field ++
          ["Must have between " ++ toString m ++ " and " ++ toString n ++
            " entries, but had " ++ toString v.len]) := by
  intro field errors m n hmn
  refine ⟨?_, ?_, ?_⟩
  · intro v
    rw [isStringLength_violated (by omega), addError_self,
      if_neg (by omega)]
  · intro v
    rw [isNumberBetween_violated (by omega), addError_self,
      if_neg (by omega)]
  · intro Q U instU v
    rw [isSize_violated (by omega), addError_self, if_neg (by omega)]

/-- Witness for C10: bounds 5 > 2 fail on "abc" (length 3 inside neither
bound order) and on the value 3. -/
theorem inverted_bounds_always_fail_witness :
    IsStringLength "f" emptyErrors "abc" 5 2 "f" = emptyErrors "f" ++
        ["Must be between " ++ toString (5 : Int) ++ " and " ++
          toString (2 : Int) ++ " characters long"] ∧
      IsNumberBetween "f" emptyErrors 3 5 2 "f" = emptyErrors "f" ++
        ["Must be between " ++ toString (5 : Int) ++ " and " ++
          toString (2 : Int) ++ ", but was " ++ toString (3 : Int)] :=
  ⟨(inverted_bounds_always_fail "f" emptyErrors 5 2 (by decide)).1 "abc",
    (inverted_bounds_always_fail "f" emptyErrors 5 2 (by decide)).2.1 3⟩

end GoForms
